import Mathlib

/-!
Verification of the natural-language specification of
`python-github-webhooks` (`webhooks.py`) against a shallow embedding of its
code in Lean 4.

The embedding models the Python program's semantics explicitly:

* parsed JSON documents are values of the inductive type `Json`;
* Python exceptions that the code can raise (`KeyError`, `IndexError`,
  `TypeError`, `ValueError`, `AttributeError`, `OSError`) are values of
  `PyExc`, and fallible operations return `Except PyExc _`;
* a request handler outcome is `Except HErr String`: either a Flask
  `abort(code)` / an uncaught Python exception, or a 200 response body;
* external collaborators (the filesystem, the hook subprocesses, the
  `requests` call to the GitHub meta API, and `ipaddress` network
  membership) are passed in as explicit parameters of a `World` record;
* observable side effects of one request (payload parsing, hook
  invocations, creation and removal of the temporary payload file) are
  recorded in a `Trace`.
-/

namespace Webhooks

/-- A parsed JSON document, the result of `request.get_json()`. -/
inductive Json where
  | null
  | bool (b : Bool)
  | num (n : Int)
  | str (s : String)
  | arr (xs : List Json)
  | obj (kvs : List (String × Json))
deriving Repr

/-- The Python exceptions the modelled code can raise. -/
inductive PyExc where
  | keyError
  | indexError
  | typeError
  | valueError
  | attributeError
  | osError
deriving Repr, DecidableEq

/-- Outcome of one request: a Flask `abort(code)`, an uncaught Python
exception (which the WSGI layer turns into a 500), or a 200 body. -/
inductive HErr where
  | abort (code : Nat)
  | exc (e : PyExc)
deriving Repr, DecidableEq

/-- First-match lookup in a Python dict modelled as an association list. -/
def dictGet (kvs : List (String × Json)) (k : String) : Option Json :=
  (kvs.find? (fun kv => kv.1 == k)).map (fun kv => kv.2)

/-- Python `d[k]` subscripting with a string key: dict lookup raising
`KeyError` when the key is missing; any non-dict value raises `TypeError`
(as CPython does for `None[k]`, `5[k]`, `"s"[k]`, `[..][k]`). -/
def subscript (j : Json) (k : String) : Except PyExc Json :=
  match j with
  | .obj kvs =>
    match dictGet kvs k with
    | some v => .ok v
    | none => .error .keyError
  | _ => .error .typeError

/-- Python `==` against a string literal: only an equal string compares
equal; every other value (including numbers and booleans) is unequal. -/
def pyEqStr (j : Json) (s : String) : Bool :=
  match j with
  | .str t => t == s
  | _ => false

/-- `listStartsWith pat l` is true when `pat` is a prefix of `l`. -/
def listStartsWith : List Char → List Char → Bool
  | [], _ => true
  | _ :: _, [] => false
  | a :: pat, b :: l => a == b && listStartsWith pat l

/-- Substring test on character lists (Python `needle in haystack`). -/
def listContainsSub (pat : List Char) : List Char → Bool
  | [] => pat.isEmpty
  | c :: l => listStartsWith pat (c :: l) || listContainsSub pat l

/-- Python `k in j` for a string `k`: key membership for dicts, element
equality for lists, substring test for strings, `TypeError` otherwise. -/
def pyIn (k : String) (j : Json) : Except PyExc Bool :=
  match j with
  | .obj kvs => .ok (kvs.any (fun kv => kv.1 == k))
  | .arr xs => .ok (xs.any (fun x => pyEqStr x k))
  | .str s => .ok (listContainsSub k.data s.data)
  | _ => .error .typeError

/-- Python truthiness (`bool(x)`). -/
def pyTruthy (j : Json) : Bool :=
  match j with
  | .null => false
  | .bool b => b
  | .num n => n != 0
  | .str s => s != ""
  | .arr xs => !xs.isEmpty
  | .obj kvs => !kvs.isEmpty
end Webhooks

namespace Webhooks

/-- The single-quote character, used by the Python `repr` of strings. -/
def squote : String := String.mk [Char.ofNat 39]

/-- Python `repr(x)` for parsed-JSON values (used by `str` on containers).
String escaping and the `u` prefix of Python 2 unicode reprs are elided;
no theorem below observes the rendering of containers. -/
def pyRepr : Json → String
  | .null => "None"
  | .bool true => "True"
  | .bool false => "False"
  | .num n => toString n
  | .str s => squote ++ s ++ squote
  | .arr xs =>
    "[" ++ String.intercalate ", " (xs.attach.map (fun x => pyRepr x.1)) ++ "]"
  | .obj kvs =>
    "\x7b" ++
      String.intercalate ", "
        (kvs.attach.map (fun kv => squote ++ kv.1.1 ++ squote ++ ": " ++ pyRepr kv.1.2)) ++
      "\x7d"
decreasing_by
  all_goals simp_wf
  all_goals
    first
    | (have hx := List.sizeOf_lt_of_mem x.2; omega)
    | (have h1 := List.sizeOf_lt_of_mem kv.2
       have h2 : sizeOf kv.1.2 < sizeOf kv.1 := by
         obtain ⟨a, b⟩ := kv.1; simp only [Prod.mk.sizeOf_spec]; omega
       omega)

/-- Python `str(x)` as used by `'...'.format(**meta)`: identity on strings,
`repr` on everything else. -/
def pyStr (j : Json) : String :=
  match j with
  | .str s => s
  | _ => pyRepr j

/-- `str` of a value that may be Python `None` (an absent branch or name). -/
def pyStrOpt (o : Option Json) : String :=
  match o with
  | none => "None"
  | some j => pyStr j

/-- Truthiness of a value that may be Python `None`. -/
def pyTruthyOpt (o : Option Json) : Bool :=
  match o with
  | none => false
  | some j => pyTruthy j

/-- Split a character list at every occurrence of `sep`
(Python `s.split(sep)` with no maxsplit). -/
def splitCharList (sep : Char) : List Char → List (List Char)
  | [] => [[]]
  | c :: cs =>
    if c = sep then [] :: splitCharList sep cs
    else
      match splitCharList sep cs with
      | [] => [[c]]
      | h :: t => (c :: h) :: t

/-- Python `s.split(sep)` for a single-character separator. -/
def pySplit (sep : Char) (s : String) : List String :=
  (splitCharList sep s.data).map String.mk

/-- Split a character list at `sep`, performing at most `maxsplit` splits
from the left (Python `s.split(sep, maxsplit)`). -/
def splitMaxCharList (sep : Char) : Nat → List Char → List (List Char)
  | _, [] => [[]]
  | 0, l => [l]
  | m + 1, c :: cs =>
    if c = sep then [] :: splitMaxCharList sep m cs
    else
      match splitMaxCharList sep (m + 1) cs with
      | [] => [[c]]
      | h :: t => (c :: h) :: t

/-- Python `s.split(sep, maxsplit)` for a single-character separator. -/
def pySplitMax (sep : Char) (maxsplit : Nat) (s : String) : List String :=
  (splitMaxCharList sep maxsplit s.data).map String.mk

/-- True when the first character of `s` is `c` (`s.startswith(c)`). -/
def firstCharIs (c : Char) (s : String) : Bool :=
  match s.data with
  | [] => false
  | d :: _ => d == c

/-- True when the last character of `s` is `c` (`s.endswith(c)`). -/
def lastCharIs (c : Char) (s : String) : Bool :=
  match s.data.getLast? with
  | none => false
  | some d => d == c

/-- `os.path.join(a, b)`: an absolute second component replaces the first;
otherwise the components are joined with a single separator. -/
def pathJoin (a b : String) : String :=
  if firstCharIs (Char.ofNat 47) b then b
  else if a = "" then b
  else if lastCharIs (Char.ofNat 47) a then a ++ b
  else a ++ "/" ++ b

/-- `os.path.basename(p)`: everything after the last slash. -/
def basename (p : String) : String :=
  String.mk ((splitCharList (Char.ofNat 47) p.data).getLastD [])

/-!
## EventExtractor — `webhooks.py` lines 157–185

The branch probe mirrors the `if 'ref_type' in payload ... elif ... elif
event in ['push'] ...` chain inside the `try` block.  The surrounding
`except KeyError: pass` swallows `KeyError` only; every other exception
propagates out of the handler.
-/

/-- The body of the `try` block at lines 160–176: the `if/elif` chain that
probes the payload for a branch name.  `.ok none` means the Python variable
`branch` was left as `None`. -/
def branchProbe (event : String) (payload : Json) : Except PyExc (Option Json) := do
  let hasRefType ← pyIn "ref_type" payload
  if hasRefType then
    let rt ← subscript payload "ref_type"
    if pyEqStr rt "branch" then
      let r ← subscript payload "ref"
      return (some r)
    else
      return none
  else
    let hasPR ← pyIn "pull_request" payload
    if hasPR then
      let pr ← subscript payload "pull_request"
      let base ← subscript pr "base"
      let r ← subscript base "ref"
      return (some r)
    else if event = "push" then
      let r ← subscript payload "ref"
      match r with
      | .str rs =>
        -- payload['ref'].split('/', 2)[2]
        match (pySplitMax (Char.ofNat 47) 2 rs).get? 2 with
        | some seg => return (some (.str seg))
        | none => throw .indexError
      | _ =>
        -- a non-string has no `.split` method
        throw .attributeError
    else
      return none

/-- Lines 159–181: the branch probe wrapped in `try ... except KeyError:
pass`.  A `KeyError` yields `branch = None`; any other exception
propagates. -/
def extractBranch (event : String) (payload : Json) : Except PyExc (Option Json) :=
  match branchProbe event payload with
  | .error .keyError => .ok none
  | r => r

/-- Line 185: `name = payload['repository']['name'] if 'repository' in
payload else None` — outside the `try`, so nothing is caught here. -/
def extractName (payload : Json) : Except PyExc (Option Json) := do
  let hasRepo ← pyIn "repository" payload
  if hasRepo then
    let repo ← subscript payload "repository"
    let n ← subscript repo "name"
    return (some n)
  else
    return none

/-!
## HookResolver — `webhooks.py` lines 199–209
-/

/-- Lines 199–206: the candidate script list, built by appending
`{event}-{name}-{branch}` (when both `branch` and `name` are truthy),
`{event}-{name}` (when `name` is truthy), `{event}` and `all`.  No
deduplication is performed. -/
def possibleScripts (hooks event : String) (name branch : Option Json) : List String :=
  (if pyTruthyOpt branch && pyTruthyOpt name then
    [pathJoin hooks (event ++ "-" ++ pyStrOpt name ++ "-" ++ pyStrOpt branch)]
  else []) ++
  (if pyTruthyOpt name then
    [pathJoin hooks (event ++ "-" ++ pyStrOpt name)]
  else []) ++
  [pathJoin hooks event, pathJoin hooks "all"]

/-!
## SignatureVerifier — `webhooks.py` lines 119–143

The code calls `hmac.new(key=secret, msg=request.data,
digestmod=hashlib.sha1).hexdigest()`.  HMAC-SHA1 is implemented here
concretely over byte lists (`List Nat`, each byte < 256), with 32-bit
words as `Nat` reduced modulo `2 ^ 32`.
-/

/-- Truncation to a 32-bit word. -/
def w32 (n : Nat) : Nat := n % 4294967296

/-- Left rotation of a 32-bit word by `k` bits. -/
def rotl (k n : Nat) : Nat := w32 (n * 2 ^ k + n / 2 ^ (32 - k))

/-- The SHA-1 round function for round `i`. -/
def sha1f (i b c d : Nat) : Nat :=
  if i < 20 then Nat.lor (Nat.land b c) (Nat.land (4294967295 - b) d)
  else if i < 40 then Nat.xor b (Nat.xor c d)
  else if i < 60 then Nat.lor (Nat.lor (Nat.land b c) (Nat.land b d)) (Nat.land c d)
  else Nat.xor b (Nat.xor c d)

/-- The SHA-1 round constant for round `i`. -/
def sha1k (i : Nat) : Nat :=
  if i < 20 then 0x5A827999
  else if i < 40 then 0x6ED9EBA1
  else if i < 60 then 0x8F1BBCDC
  else 0xCA62C1D6

/-- `n` as `k` big-endian bytes. -/
def beBytes : Nat → Nat → List Nat
  | 0, _ => []
  | k + 1, n => beBytes k (n / 256) ++ [n % 256]

/-- SHA-1 message padding: a `0x80` byte, zeros to 56 mod 64, and the
bit length as 8 big-endian bytes. -/
def sha1Pad (msg : List Nat) : List Nat :=
  msg ++ [128] ++ List.replicate ((119 - msg.length % 64) % 64) 0 ++
    beBytes 8 (msg.length * 8)

/-- Group a byte list into 32-bit big-endian words. -/
def toWords : List Nat → List Nat
  | a :: b :: c :: d :: rest => (((a * 256 + b) * 256 + c) * 256 + d) :: toWords rest
  | _ => []

/-- Cut a (padded) byte list into 64-byte blocks. -/
def toBlocks (l : List Nat) : List (List Nat) :=
  if h : l = [] then []
  else l.take 64 :: toBlocks (l.drop 64)
termination_by l.length
decreasing_by
  have : 0 < l.length := List.length_pos.mpr h
  simp only [List.length_drop]
  omega

/-- One step of the SHA-1 message-schedule extension, on the reversed list
of words produced so far. -/
def extendStep (acc : List Nat) : List Nat :=
  rotl 1 (Nat.xor (Nat.xor (acc.getD 2 0) (acc.getD 7 0))
          (Nat.xor (acc.getD 13 0) (acc.getD 15 0))) :: acc

/-- One SHA-1 compression round: state `(a,b,c,d,e)` against the indexed
schedule word `(i, w[i])`. -/
def sha1Step (st : Nat × Nat × Nat × Nat × Nat) (iw : Nat × Nat) :
    Nat × Nat × Nat × Nat × Nat :=
  match st, iw with
  | (a, b, c, d, e), (i, wi) =>
    (w32 (rotl 5 a + sha1f i b c d + e + sha1k i + wi), a, rotl 30 b, c, d)

/-- Process one 64-byte block (given as its 16 words). -/
def sha1Block (h : Nat × Nat × Nat × Nat × Nat) (ws : List Nat) :
    Nat × Nat × Nat × Nat × Nat :=
  let ws80 := (extendStep^[64] ws.reverse).reverse
  match h, ws80.enum.foldl sha1Step h with
  | (p0, p1, p2, p3, p4), (a, b, c, d, e) =>
    (w32 (p0 + a), w32 (p1 + b), w32 (p2 + c), w32 (p3 + d), w32 (p4 + e))

/-- SHA-1 of a byte list, as a 20-byte list. -/
def sha1 (msg : List Nat) : List Nat :=
  match (toBlocks (sha1Pad msg)).foldl (fun st blk => sha1Block st (toWords blk))
      (0x67452301, 0xEFCDAB89, 0x98BADCFE, 0x10325476, 0xC3D2E1F0) with
  | (a, b, c, d, e) =>
    beBytes 4 a ++ beBytes 4 b ++ beBytes 4 c ++ beBytes 4 d ++ beBytes 4 e

/-- The lowercase hexadecimal digit for `n < 16`. -/
def hexDigit (n : Nat) : Char :=
  Char.ofNat (if n < 10 then 48 + n else 87 + n)

/-- The two lowercase hex characters of one byte. -/
def byteHexChars (b : Nat) : List Char :=
  [hexDigit (b / 16 % 16), hexDigit (b % 16)]

/-- Lowercase hex rendering of a byte list (`.hexdigest()`). -/
def bytesToHex (bs : List Nat) : String :=
  String.mk (bs.map byteHexChars).flatten

/-- HMAC-SHA1 (RFC 2104) with a 64-byte block size. -/
def hmacSha1 (key msg : List Nat) : List Nat :=
  let k0 := if 64 < key.length then sha1 key else key
  let kp := k0 ++ List.replicate (64 - k0.length) 0
  sha1 (kp.map (fun b => Nat.xor b 92) ++ sha1 (kp.map (fun b => Nat.xor b 54) ++ msg))

/-- The bytes of a (Python 2 `str`) secret. -/
def strBytes (s : String) : List Nat := s.data.map Char.toNat

/-- `hmac.new(key=str(secret), msg=body, digestmod=hashlib.sha1).hexdigest()`. -/
def hmacSha1Hex (secret : String) (body : List Nat) : String :=
  bytesToHex (hmacSha1 (strBytes secret) body)

/-- Lines 119–143: the secret enforcement block.  With an empty (falsy)
secret the block is skipped.  A missing `X-Hub-Signature` header aborts
with 403.  `sha_name, signature = header_signature.split('=')` raises
`ValueError` unless the split yields exactly two parts.  A tag other than
`sha1` aborts with 501; a digest mismatch aborts with 403 (the
`hmac.compare_digest` and plain `!=` branches decide the same equality). -/
def enforceSecretCheck (secret : String) (headerSig : Option String)
    (body : List Nat) : Except HErr Unit :=
  if secret = "" then .ok ()
  else
    match headerSig with
    | none => .error (.abort 403)
    | some hs =>
      match pySplit (Char.ofNat 61) hs with
      | [shaName, signature] =>
        if shaName ≠ "sha1" then .error (.abort 501)
        else if hmacSha1Hex secret body = signature then .ok ()
        else .error (.abort 403)
      | _ => .error (.exc .valueError)

/-!
## AllowlistCache — `webhooks.py` lines 42–67 and 89–117
-/

/-- The `GithubMeta` cache: the IP range list and the ETag validator. -/
structure GithubMeta where
  ips : List String := []
  etag : String := ""
deriving Repr, DecidableEq

/-- The relevant parts of the `requests.get('https://api.github.com/meta',
...)` response: the status code, the `eTag` response header (absent ⇒
`resp.headers['eTag']` raises `KeyError`) and the `hooks` range list of the
JSON body. -/
structure MetaResponse where
  status : Nat
  etagHeader : Option String := none
  hooks : List String := []

/-- Line 95: the conditional request headers sent to the meta API. -/
def metaRequestHeaders (ghm : GithubMeta) : List (String × String) :=
  [("If-None-Match", ghm.etag)]

/-- Lines 97–103: process the meta API response.  Status 200 replaces both
cached fields with the fetched values; any status other than 200 and 304
aborts with that status; 304 leaves the cache unchanged.  Returns the
updated cache and the whitelist (`whitelist = ghm.ips`). -/
def githubMetaRefresh (ghm : GithubMeta) (resp : MetaResponse) :
    Except HErr (GithubMeta × List String) :=
  if resp.status = 200 then
    match resp.etagHeader with
    | none => .error (.exc .keyError)
    | some e =>
      .ok ({ ips := resp.hooks, etag := e }, resp.hooks)
  else if resp.status = 304 then .ok (ghm, ghm.ips)
  else .error (.abort resp.status)

/-!
## RequestHandler — `webhooks.py` lines 70–249
-/

/-- The per-request configuration (`config.json`), with the defaults of the
`config.get(...)` calls. -/
structure Config where
  hooksPath : String
  githubIpsOnly : Bool := true
  allowLoopback : Bool := false
  enforceSecret : String := ""
  returnScriptsInfo : Bool := false

/-- The outcome of invoking one hook subprocess: either a completed process
(exit code, decoded stdout and stderr), or an exception raised while
starting, communicating with, or decoding the output of the process. -/
inductive HookOutcome where
  | result (returncode : Int) (stdout stderr : String)
  | raises (e : PyExc)

/-- True when the invocation completed without raising. -/
def HookOutcome.isRun : HookOutcome → Bool
  | .result _ _ _ => true
  | .raises _ => false

/-- The external collaborators of one request: `ipaddress` membership,
the filesystem test `isfile(s) and access(s, X_OK)`, the hook subprocesses
and the meta API response. -/
structure World where
  ipInNet : String → String → Bool
  isExecFile : String → Bool
  runHook : String → HookOutcome
  metaResp : MetaResponse

/-- The incoming HTTP request. `getJson` is the result of
`request.get_json()`: `.error ()` models a parse failure (the
`except Exception` path that aborts with 400). -/
structure WebRequest where
  method : String
  accessRoute : List String
  headers : List (String × String)
  body : List Nat := []
  getJson : Except Unit Json := .error ()

/-- Header lookup (`request.headers.get(k)`). -/
def headerGet (headers : List (String × String)) (k : String) : Option String :=
  (headers.find? (fun kv => kv.1 == k)).map (fun kv => kv.2)

/-- Observable per-request effects: whether the payload was parsed, whether
the candidate-script list was computed, the hook paths invoked in order,
and whether the temporary payload file was created / removed. -/
structure Trace where
  payloadParsed : Bool := false
  hooksResolved : Bool := false
  invoked : List String := []
  tmpCreated : Bool := false
  tmpRemoved : Bool := false
deriving Repr, DecidableEq

/-- One per-hook entry of the `ran` mapping. -/
structure HookResult where
  returncode : Int
  stdout : String
  stderr : String
deriving Repr, DecidableEq

/-- Python dict assignment `d[k] = v`: replace an existing binding in
place, else append. -/
def dictInsert (d : List (String × HookResult)) (k : String) (v : HookResult) :
    List (String × HookResult) :=
  if d.any (fun kv => kv.1 == k) then
    d.map (fun kv => if kv.1 == k then (k, v) else kv)
  else d ++ [(k, v)]

/-- Lines 219–238: the hook loop.  Each script is invoked in order; a raised
exception aborts the loop (and the request) immediately, after the scripts
before it have already run.  Returns the `ran` mapping (keyed by basename)
or the exception, plus the list of attempted invocations. -/
def runScriptsAux (runHook : String → HookOutcome)
    (acc : List (String × HookResult)) (inv : List String) :
    List String → Except PyExc (List (String × HookResult)) × List String
  | [] => (.ok acc, inv)
  | s :: rest =>
    match runHook s with
    | .raises e => (.error e, inv ++ [s])
    | .result rc out err =>
      runScriptsAux runHook (dictInsert acc (basename s) ⟨rc, out, err⟩)
        (inv ++ [s]) rest

/-- JSON string rendering used by the detailed response (escaping elided;
no theorem observes it). -/
def jsonQuote (s : String) : String := "\"" ++ s ++ "\""

/-- One entry of `dumps(ran, sort_keys=True, indent=4)`. -/
def dumpsResultEntry (kv : String × HookResult) : String :=
  "    " ++ jsonQuote kv.1 ++ ": \x7b\n        \"returncode\": " ++
    toString kv.2.returncode ++ ",\n        \"stdout\": " ++ jsonQuote kv.2.stdout ++
    ",\n        \"stderr\": " ++ jsonQuote kv.2.stderr ++ "\n    \x7d"

/-- Line 247: `dumps(ran, sort_keys=True, indent=4)`. -/
def dumpsResults (ran : List (String × HookResult)) : String :=
  "\x7b\n" ++
    String.intercalate ",\n"
      ((ran.mergeSort (fun a b => a.1 ≤ b.1)).map dumpsResultEntry) ++
  "\n\x7d"

/-- `dumps({'msg': 'pong'})`. -/
def pongBody : String := "\x7b\"msg\": \"pong\"\x7d"

/-- `dumps({'status': 'skipped'})`. -/
def skippedBody : String := "\x7b\"status\": \"skipped\"\x7d"

/-- `dumps({'status': 'nop'})`. -/
def nopBody : String := "\x7b\"status\": \"nop\"\x7d"

/-- `dumps({'status': 'done'})`. -/
def doneBody : String := "\x7b\"status\": \"done\"\x7d"

/-- Lines 89–117: the source-IP gate.  When `github_ips_only` is set, the
meta cache is refreshed, `127.0.0.0/8` is appended when `allow_loopback`
is set and the range is absent, and the source address must fall in some
whitelisted network (the `for ... else: abort(403)`). -/
def sourceCheck (cfg : Config) (w : World) (ghm : GithubMeta)
    (req : WebRequest) : Except HErr Unit :=
  if cfg.githubIpsOnly then
    match req.accessRoute with
    | [] => .error (.exc .indexError)
    | srcIp :: _ =>
      match githubMetaRefresh ghm w.metaResp with
      | .error e => .error e
      | .ok (_, wl0) =>
        let whitelist :=
          if cfg.allowLoopback && !(wl0.contains "127.0.0.0/8") then
            wl0 ++ ["127.0.0.0/8"]
          else wl0
        if whitelist.any (fun v => w.ipInNet srcIp v) then .ok ()
        else .error (.abort 403)
  else .ok ()

/-- Lines 194–197: `if event == 'push' and payload['deleted']:` with
Python's short-circuit `and`. -/
def pushDeleted (event : String) (payload : Json) : Except PyExc Bool :=
  if event = "push" then (subscript payload "deleted").map pyTruthy
  else .ok false

/-- Lines 213–249: create the temporary payload file, run the scripts,
remove the file (only on the non-raising path — line 241 is not in a
`finally`), and shape the response. -/
def executeScripts (cfg : Config) (w : World) (scripts : List String) :
    Except HErr String × Trace :=
  match runScriptsAux w.runHook [] [] scripts with
  | (.error e, inv) =>
    (.error (.exc e),
     { payloadParsed := true, hooksResolved := true, invoked := inv,
       tmpCreated := true, tmpRemoved := false })
  | (.ok ran, inv) =>
    (if !cfg.returnScriptsInfo then .ok doneBody else .ok (dumpsResults ran),
     { payloadParsed := true, hooksResolved := true, invoked := inv,
       tmpCreated := true, tmpRemoved := true })

/-- Lines 157–249: the part of the handler after a successful payload
parse. -/
def afterParse (cfg : Config) (w : World) (event : String) (payload : Json) :
    Except HErr String × Trace :=
  let tr : Trace := { payloadParsed := true }
  match extractBranch event payload with
  | .error e => (.error (.exc e), tr)
  | .ok branch =>
    match extractName payload with
    | .error e => (.error (.exc e), tr)
    | .ok name =>
      match pushDeleted event payload with
      | .error e => (.error (.exc e), tr)
      | .ok true => (.ok skippedBody, tr)
      | .ok false =>
        let scripts := (possibleScripts cfg.hooksPath event name branch).filter
          w.isExecFile
        if scripts = [] then
          (.ok nopBody, { payloadParsed := true, hooksResolved := true })
        else executeScripts cfg w scripts

/-- Lines 70–249: the `index` view function, from the method check to the
response.  The loaded configuration, the external world and the cache
state are passed explicitly. -/
def index (cfg : Config) (w : World) (ghm : GithubMeta) (req : WebRequest) :
    Except HErr String × Trace :=
  if req.method ≠ "POST" then (.error (.abort 501), {})
  else
    match sourceCheck cfg w ghm req with
    | .error e => (.error e, {})
    | .ok () =>
      match enforceSecretCheck cfg.enforceSecret
          (headerGet req.headers "X-Hub-Signature") req.body with
      | .error e => (.error e, {})
      | .ok () =>
        let event := (headerGet req.headers "X-GitHub-Event").getD "ping"
        if event = "ping" then (.ok pongBody, {})
        else
          match req.getJson with
          | .error _ => (.error (.abort 400), {})
          | .ok payload => afterParse cfg w event payload

/-!
## Concrete fixtures used by the witnesses and counterexamples
-/

/-- A configuration with source filtering disabled and no secret. -/
def cfgNoIp : Config := { hooksPath := "/hooks", githubIpsOnly := false }

/-- A meta API response signalling "not modified". -/
def respNotModified : MetaResponse := { status := 304 }

/-- A world where only `/hooks/all` is an executable file and every hook
invocation raises `OSError`. -/
def worldHookRaises : World :=
  { ipInNet := fun _ _ => false
    isExecFile := fun s => s == "/hooks/all"
    runHook := fun _ => .raises .osError
    metaResp := respNotModified }

/-- As `worldHookRaises`, but every hook invocation exits cleanly. -/
def worldHookOk : World := { worldHookRaises with runHook := fun _ => .result 0 "" "" }

/-- A `release` event request with an empty JSON object payload. -/
def reqRelease : WebRequest :=
  { method := "POST"
    accessRoute := ["203.0.113.5"]
    headers := [("X-GitHub-Event", "release")]
    getJson := .ok (.obj []) }

/-- A request with no `X-GitHub-Event` header. -/
def reqNoEvent : WebRequest := { reqRelease with headers := [] }

/-- A `push` event whose payload has a `ref` but no `deleted` key. -/
def reqPushNoDeleted : WebRequest :=
  { reqRelease with
    headers := [("X-GitHub-Event", "push")]
    getJson := .ok (.obj [("ref", Json.str "refs/heads/main")]) }

/-- A payload whose `ref_type` is present but not `"branch"`. -/
def payloadTagRefType : Json :=
  .obj [("ref_type", Json.str "tag"), ("ref", Json.str "refs/heads/main")]

/-- Meta responses used by the allowlist-refresh witness. -/
def respFresh : MetaResponse :=
  { status := 200, etagHeader := some "E2", hooks := ["192.30.252.0/22"] }

/-- A failing meta response. -/
def respFailed : MetaResponse := { status := 500 }

/-- A cache state with a previously stored range list and validator. -/
def ghmCached : GithubMeta := { ips := ["10.0.0.0/8"], etag := "E1" }

/-- The verification contract of the secret enforcement block for a
configured non-empty secret: acceptance exactly on
`sha1=<lowercase hex HMAC-SHA1>`, 403 on a missing header or a digest
mismatch, 501 on any other algorithm tag. -/
def SignatureSpec (secret : String) (body : List Nat) : Prop :=
  (∀ hs : String,
    enforceSecretCheck secret (some hs) body = .ok () ↔
      hs = "sha1=" ++ hmacSha1Hex secret body) ∧
  enforceSecretCheck secret none body = .error (.abort 403) ∧
  (∀ sig : String, Char.ofNat 61 ∉ sig.data → sig ≠ hmacSha1Hex secret body →
    enforceSecretCheck secret (some ("sha1=" ++ sig)) body = .error (.abort 403)) ∧
  (∀ tag sig : String, Char.ofNat 61 ∉ tag.data → Char.ofNat 61 ∉ sig.data →
    tag ≠ "sha1" →
    enforceSecretCheck secret (some (tag ++ "=" ++ sig)) body = .error (.abort 501))

/-!
## Helper lemmas
-/

theorem strExt {a b : String} (h : a.data = b.data) : a = b := by
  cases a
  cases b
  exact congrArg String.mk h

theorem strMkData (s : String) : String.mk s.data = s := by
  cases s
  rfl

theorem any_key_of_dictGet {kvs : List (String × Json)} {k : String} {v : Json}
    (h : dictGet kvs k = some v) : kvs.any (fun kv => kv.1 == k) = true := by
  unfold dictGet at h
  cases hf : kvs.find? (fun kv => kv.1 == k) with
  | none => rw [hf] at h; simp at h
  | some kv0 =>
    have hp := @List.find?_some _ (fun kv => kv.1 == k) kv0 kvs hf
    exact List.any_eq_true.mpr ⟨kv0, List.mem_of_find?_eq_some hf, hp⟩

theorem runScriptsAux_all_ok (rh : String → HookOutcome) :
    ∀ scripts : List String, (scripts.all fun s => (rh s).isRun) = true →
    ∀ (acc : List (String × HookResult)) (inv : List String),
    ∃ ran, runScriptsAux rh acc inv scripts = (.ok ran, inv ++ scripts) := by
  intro scripts
  induction scripts with
  | nil => exact fun _ acc inv => ⟨acc, by simp [runScriptsAux]⟩
  | cons s rest ih =>
    intro hall acc inv
    rw [List.all_cons, Bool.and_eq_true] at hall
    cases hrh : rh s with
    | raises e => rw [hrh] at hall; simp [HookOutcome.isRun] at hall
    | result rc out err =>
      obtain ⟨ran, hrec⟩ :=
        ih hall.2 (dictInsert acc (basename s) ⟨rc, out, err⟩) (inv ++ [s])
      exact ⟨ran, by simp [runScriptsAux, hrh, hrec]⟩

theorem splitCharList_ne_nil (sep : Char) (l : List Char) :
    splitCharList sep l ≠ [] := by
  cases l with
  | nil => simp [splitCharList]
  | cons c cs =>
    simp only [splitCharList]
    split
    · simp
    · cases splitCharList sep cs <;> simp

theorem splitCharList_not_mem (sep : Char) (l : List Char) (h : sep ∉ l) :
    splitCharList sep l = [l] := by
  induction l with
  | nil => rfl
  | cons c cs ih =>
    rw [List.mem_cons, not_or] at h
    have hc : ¬ (c = sep) := fun hh => h.1 hh.symm
    simp only [splitCharList, if_neg hc, ih h.2]

theorem splitCharList_append (sep : Char) (l1 l2 : List Char) (h : sep ∉ l1) :
    splitCharList sep (l1 ++ sep :: l2) = l1 :: splitCharList sep l2 := by
  induction l1 with
  | nil => simp [splitCharList]
  | cons c cs ih =>
    rw [List.mem_cons, not_or] at h
    have hc : ¬ (c = sep) := fun hh => h.1 hh.symm
    rw [List.cons_append]
    simp only [splitCharList, if_neg hc, ih h.2]

theorem splitCharList_eq_singleton (sep : Char) :
    ∀ l y : List Char, splitCharList sep l = [y] → l = y := by
  intro l
  induction l with
  | nil =>
    intro y h
    exact (List.cons.inj h).1
  | cons c cs ih =>
    intro y h
    by_cases hc : c = sep
    · rw [show splitCharList sep (c :: cs) = [] :: splitCharList sep cs by
        simp [splitCharList, hc]] at h
      injection h with _ h2
      exact absurd h2 (splitCharList_ne_nil sep cs)
    · cases hsp : splitCharList sep cs with
      | nil => exact absurd hsp (splitCharList_ne_nil sep cs)
      | cons h0 t =>
        rw [show splitCharList sep (c :: cs) = (c :: h0) :: t by
          simp [splitCharList, hc, hsp]] at h
        injection h with h1 h2
        subst h2
        rw [← h1, ih h0 hsp]

theorem splitCharList_eq_pair (sep : Char) :
    ∀ l x y : List Char, splitCharList sep l = [x, y] → l = x ++ sep :: y := by
  intro l
  induction l with
  | nil =>
    intro x y h
    injection h with _ h2
    exact absurd h2 (by simp)
  | cons c cs ih =>
    intro x y h
    by_cases hc : c = sep
    · rw [show splitCharList sep (c :: cs) = [] :: splitCharList sep cs by
        simp [splitCharList, hc]] at h
      injection h with h1 h2
      rw [← h1, List.nil_append, hc, splitCharList_eq_singleton sep cs y h2]
    · cases hsp : splitCharList sep cs with
      | nil => exact absurd hsp (splitCharList_ne_nil sep cs)
      | cons h0 t =>
        rw [show splitCharList sep (c :: cs) = (c :: h0) :: t by
          simp [splitCharList, hc, hsp]] at h
        injection h with h1 h2
        subst h2
        rw [← h1, List.cons_append]
        rw [ih h0 y hsp]

theorem splitCharList_length (sep : Char) (l : List Char) :
    (splitCharList sep l).length = l.count sep + 1 := by
  induction l with
  | nil => rfl
  | cons c cs ih =>
    by_cases hc : c = sep
    · rw [show splitCharList sep (c :: cs) = [] :: splitCharList sep cs by
        simp [splitCharList, hc]]
      simp [List.count_cons, hc, ih]
    · cases hsp : splitCharList sep cs with
      | nil => exact absurd hsp (splitCharList_ne_nil sep cs)
      | cons h0 t =>
        rw [show splitCharList sep (c :: cs) = (c :: h0) :: t by
          simp [splitCharList, hc, hsp]]
        have := hsp ▸ ih
        simp only [List.length_cons] at this ⊢
        have hcc : ¬ (sep = c) := fun hh => hc hh.symm
        simp [List.count_cons, hcc, this]

theorem hexDigit_ne_eqchar (n : Nat) (h : n < 16) : hexDigit n ≠ Char.ofNat 61 := by
  interval_cases n <;> decide

theorem eqchar_not_mem_bytesToHex (bs : List Nat) :
    Char.ofNat 61 ∉ (bytesToHex bs).data := by
  intro hmem
  have h16 : ∀ m : Nat, m % 16 < 16 := fun m => Nat.mod_lt _ (by norm_num)
  simp only [bytesToHex] at hmem
  rw [List.mem_flatten] at hmem
  obtain ⟨l, hl, hcmem⟩ := hmem
  rw [List.mem_map] at hl
  obtain ⟨b, _, rfl⟩ := hl
  simp only [byteHexChars, List.mem_cons, List.not_mem_nil] at hcmem
  rcases hcmem with h1 | h1 | h1
  · exact hexDigit_ne_eqchar _ (h16 _) h1.symm
  · exact hexDigit_ne_eqchar _ (h16 _) h1.symm
  · exact h1

theorem splitCharList_of_pySplit {sep : Char} {s : String} {parts : List String}
    (h : pySplit sep s = parts) :
    splitCharList sep s.data = parts.map String.data := by
  rw [← h]
  unfold pySplit
  rw [List.map_map]
  rw [show String.data ∘ String.mk = id from rfl, List.map_id]

theorem pySplit_sha1_digest (d : String) (hd : Char.ofNat 61 ∉ d.data) :
    pySplit (Char.ofNat 61) ("sha1=" ++ d) = ["sha1", d] := by
  unfold pySplit
  have hdata : ("sha1=" ++ d).data = "sha1".data ++ (Char.ofNat 61) :: d.data := rfl
  rw [hdata, splitCharList_append _ _ _ (by decide), splitCharList_not_mem _ _ hd]
  simp [strMkData]

theorem pySplit_tag_digest (t d : String) (ht : Char.ofNat 61 ∉ t.data)
    (hd : Char.ofNat 61 ∉ d.data) :
    pySplit (Char.ofNat 61) (t ++ "=" ++ d) = [t, d] := by
  unfold pySplit
  have hdata : (t ++ "=" ++ d).data = t.data ++ (Char.ofNat 61) :: d.data := by
    show (t.data ++ [Char.ofNat 61]) ++ d.data = t.data ++ (Char.ofNat 61) :: d.data
    rw [List.append_assoc]
    rfl
  rw [hdata, splitCharList_append _ _ _ ht, splitCharList_not_mem _ _ hd]
  simp [strMkData]

theorem enforceSecretCheck_some {secret : String} (hsec : secret ≠ "")
    (hs : String) (body : List Nat) :
    enforceSecretCheck secret (some hs) body =
      match pySplit (Char.ofNat 61) hs with
      | [shaName, signature] =>
        if shaName ≠ "sha1" then .error (.abort 501)
        else if hmacSha1Hex secret body = signature then .ok ()
        else .error (.abort 403)
      | _ => .error (.exc .valueError) := by
  unfold enforceSecretCheck
  rw [if_neg hsec]

/-!
## Claims
-/

/-- C4: with a configured non-empty secret, the signature check accepts
exactly on a header equal to `sha1=` followed by the lowercase hex
HMAC-SHA1 digest of the raw body under the secret; a missing header or a
(well-formed, sha1-tagged) mismatching digest is rejected with 403; any
other algorithm tag is rejected with 501. -/
theorem c4_signature_verification :
    ∀ (secret : String) (body : List Nat), secret ≠ "" →
    SignatureSpec secret body := by
  intro secret body hsec
  have hdig : Char.ofNat 61 ∉ (hmacSha1Hex secret body).data :=
    eqchar_not_mem_bytesToHex _
  refine ⟨?_, ?_, ?_, ?_⟩
  · intro hs
    rw [enforceSecretCheck_some hsec hs body]
    constructor
    · intro hok
      cases hsp : pySplit (Char.ofNat 61) hs with
      | nil => rw [hsp] at hok; simp at hok
      | cons a t =>
        cases t with
        | nil => rw [hsp] at hok; simp at hok
        | cons b t2 =>
          cases t2 with
          | cons c r => rw [hsp] at hok; simp at hok
          | nil =>
            rw [hsp] at hok
            by_cases ha : a = "sha1"
            · by_cases hb : hmacSha1Hex secret body = b
              · have hl := splitCharList_of_pySplit hsp
                simp only [List.map_cons, List.map_nil] at hl
                have hsdata := splitCharList_eq_pair _ _ _ _ hl
                rw [ha] at hsdata
                rw [← hb] at hsdata
                apply strExt
                rw [hsdata]
                rfl
              · simp [ha, hb] at hok
            · simp [ha] at hok
    · intro heq
      subst heq
      rw [pySplit_sha1_digest _ hdig]
      simp
  · simp [enforceSecretCheck, if_neg hsec]
  · intro sig hsig hne
    rw [enforceSecretCheck_some hsec _ body]
    rw [pySplit_sha1_digest _ hsig]
    simp [Ne.symm hne]
  · intro tag sig htag hsig hne
    rw [enforceSecretCheck_some hsec _ body]
    rw [pySplit_tag_digest _ _ htag hsig]
    simp [hne]

/-- C4, witness: the contract instantiated at the concrete secret `"k"`
and the one-byte body `[97]`. -/
theorem c4_witness : ("k" : String) ≠ "" ∧ SignatureSpec "k" [97] :=
  ⟨by decide, c4_signature_verification "k" [97] (by decide)⟩

/-- C1, counterexample: a request that reaches hook execution (one resolved
hook, `/hooks/all`) whose hook invocation raises `OSError`.  The temporary
payload file is created but not removed — `remove(tmpfile)` at line 241 is
not in a `try/finally`, so the exceptional exit path leaks the file. -/
theorem c1_counterexample :
    (index cfgNoIp worldHookRaises {} reqRelease).2.tmpCreated = true ∧
    (index cfgNoIp worldHookRaises {} reqRelease).2.tmpRemoved = false ∧
    (index cfgNoIp worldHookRaises {} reqRelease).1 = .error (.exc .osError) :=
  ⟨rfl, rfl, rfl⟩

/-- C1, amended: when hook execution is reached, the temporary payload file
is created, and it is removed before the request completes provided every
hook invocation returns (no invocation raises); when an invocation raises,
the request fails with that exception and the file is left behind (see the
counterexample). -/
theorem c1_tmpfile_removed_normal_path :
    ∀ (cfg : Config) (w : World) (scripts : List String),
    (scripts.all fun s => (w.runHook s).isRun) = true →
    (executeScripts cfg w scripts).2.tmpCreated = true ∧
    (executeScripts cfg w scripts).2.tmpRemoved = true := by
  intro cfg w scripts hall
  obtain ⟨ran, hrun⟩ := runScriptsAux_all_ok w.runHook scripts hall [] []
  simp [executeScripts, hrun]

/-- C1, witness: a concrete run with one well-behaved hook removes the
temporary file. -/
theorem c1_witness :
    ((["/hooks/all"].all fun s => (worldHookOk.runHook s).isRun) = true) ∧
    (executeScripts cfgNoIp worldHookOk ["/hooks/all"]).2.tmpCreated = true ∧
    (executeScripts cfgNoIp worldHookOk ["/hooks/all"]).2.tmpRemoved = true :=
  ⟨rfl, c1_tmpfile_removed_normal_path cfgNoIp worldHookOk ["/hooks/all"] rfl⟩

/-- C2, counterexample: metadata extraction can fail.  A push payload whose
`ref` has fewer than three slash-delimited segments raises an uncaught
`IndexError` (only `KeyError` is caught), and a `repository` mapping
lacking a `name` raises an uncaught `KeyError` (line 185 is outside the
`try`), contradicting "never fails / swallowed". -/
theorem c2_counterexample :
    extractBranch "push" (Json.obj [("ref", Json.str "refs")]) =
      .error .indexError ∧
    extractName (Json.obj [("repository", Json.obj [])]) = .error .keyError :=
  ⟨rfl, rfl⟩

/-- C2, amended: only `KeyError` raised while probing for the branch is
swallowed (yielding branch = absent); `IndexError` from a short push
`ref`, `TypeError`/`AttributeError` from non-mapping shapes, and errors in
repository-name extraction (outside the guard, in particular a
`repository` mapping lacking `name`) propagate to the caller. -/
theorem c2_only_keyerror_swallowed :
    (∀ (event : String) (payload : Json),
      extractBranch event payload ≠ .error .keyError) ∧
    (∀ (kvs rkvs : List (String × Json)),
      dictGet kvs "repository" = some (.obj rkvs) →
      dictGet rkvs "name" = none →
      extractName (.obj kvs) = .error .keyError) := by
  constructor
  · intro e p h
    cases hb : branchProbe e p with
    | ok b => simp [extractBranch, hb] at h
    | error ex => cases ex <;> simp_all [extractBranch]
  · intro kvs rkvs h1 h2
    have hany := any_key_of_dictGet h1
    simp only [extractName, pyIn, hany, subscript, h1, h2]
    simp [Bind.bind, Except.bind, Functor.map, Except.map, h2]

/-- C2, witness: the branch probe of a null payload does not surface as a
`KeyError`, and a concrete repository mapping lacking `name` raises
`KeyError` out of `extractName`. -/
theorem c2_witness :
    extractBranch "create" Json.null ≠ .error .keyError ∧
    dictGet [("repository", Json.obj [])] "repository" = some (Json.obj []) ∧
    dictGet ([] : List (String × Json)) "name" = none ∧
    extractName (Json.obj [("repository", Json.obj [])]) = .error .keyError :=
  ⟨c2_only_keyerror_swallowed.1 "create" Json.null, rfl, rfl,
   c2_only_keyerror_swallowed.2 [("repository", Json.obj [])] [] rfl rfl⟩

/-- C3, counterexample: for a push payload whose `ref_type` is `"tag"` and
whose `ref` is `"refs/heads/main"`, the extracted branch is absent, not
`"main"` — the `elif` chain never reaches the push rule once `ref_type` is
present. -/
theorem c3_counterexample :
    extractBranch "push" payloadTagRefType = .ok none ∧
    (Except.ok none : Except PyExc (Option Json)) ≠
      .ok (some (Json.str "main")) := by
  refine ⟨rfl, fun h => ?_⟩
  injection h with h2
  exact Option.noConfusion h2

/-- C3, amended: the rules dispatch on field presence, not on a successful
match — whenever `ref_type` is present with any value other than
`"branch"`, no later rule applies and the branch is absent, for every
event type (including `"push"`). -/
theorem c3_reftype_shortcircuits :
    ∀ (event : String) (kvs : List (String × Json)) (v : Json),
    dictGet kvs "ref_type" = some v → pyEqStr v "branch" = false →
    extractBranch event (.obj kvs) = .ok none := by
  intro event kvs v h1 h2
  have hprobe : branchProbe event (.obj kvs) = .ok none := by
    simp only [branchProbe, pyIn, any_key_of_dictGet h1, subscript, h1, h2]
    simp [Bind.bind, Except.bind, pure, Except.pure, h2]
  simp [extractBranch, hprobe]

/-- C3, witness: the concrete tag-`ref_type` push payload instantiates the
amended rule. -/
theorem c3_witness :
    dictGet [("ref_type", Json.str "tag"), ("ref", Json.str "refs/heads/main")]
      "ref_type" = some (Json.str "tag") ∧
    pyEqStr (Json.str "tag") "branch" = false ∧
    extractBranch "push"
      (.obj [("ref_type", Json.str "tag"), ("ref", Json.str "refs/heads/main")]) =
      .ok none :=
  ⟨rfl, rfl,
   c3_reftype_shortcircuits "push"
     [("ref_type", Json.str "tag"), ("ref", Json.str "refs/heads/main")]
     (Json.str "tag") rfl rfl⟩

/-- C5, counterexample: for event type `"all"` with no repository name and
no branch, the candidate list is `[hooks/all, hooks/all]` — the colliding
catch-all path appears twice, so the list is not duplicate-free. -/
theorem c5_counterexample :
    possibleScripts "/hooks" "all" none none = ["/hooks/all", "/hooks/all"] ∧
    ¬ (possibleScripts "/hooks" "all" none none).Nodup :=
  ⟨rfl, by decide⟩

/-- C5, amended: candidates are generated without deduplication — a
colliding path appears once per generating rule (event `"all"` yields the
catch-all twice), and the runner invokes every element of the script list
it is given, once per occurrence. -/
theorem c5_duplicates_survive_and_run :
    ∀ (hooks : String) (cfg : Config) (w : World) (scripts : List String),
    (scripts.all fun s => (w.runHook s).isRun) = true →
    possibleScripts hooks "all" none none =
      [pathJoin hooks "all", pathJoin hooks "all"] ∧
    (executeScripts cfg w scripts).2.invoked = scripts := by
  intro hooks cfg w scripts hall
  obtain ⟨ran, hrun⟩ := runScriptsAux_all_ok w.runHook scripts hall [] []
  exact ⟨rfl, by simp [executeScripts, hrun]⟩

/-- C5, witness: running the duplicated catch-all candidate list invokes
the same hook path twice. -/
theorem c5_witness :
    ((["/hooks/all", "/hooks/all"].all fun s => (worldHookOk.runHook s).isRun)
      = true) ∧
    possibleScripts "/h" "all" none none =
      [pathJoin "/h" "all", pathJoin "/h" "all"] ∧
    (executeScripts cfgNoIp worldHookOk ["/hooks/all", "/hooks/all"]).2.invoked =
      ["/hooks/all", "/hooks/all"] :=
  ⟨rfl, c5_duplicates_survive_and_run "/h" cfgNoIp worldHookOk
    ["/hooks/all", "/hooks/all"] rfl⟩

/-- C6: for event `"push"`, repository name `"repo"` and branch `"main"`,
the candidate list before filesystem filtering is exactly
`[push-repo-main, push-repo, push, all]` (joined onto the hooks
directory), in that order, and the filtered list is always a subsequence
of it. -/
theorem c6_candidates_push_repo_main :
    ∀ (hooks : String) (p : String → Bool),
    possibleScripts hooks "push" (some (Json.str "repo")) (some (Json.str "main")) =
      [pathJoin hooks "push-repo-main", pathJoin hooks "push-repo",
       pathJoin hooks "push", pathJoin hooks "all"] ∧
    ((possibleScripts hooks "push" (some (Json.str "repo"))
        (some (Json.str "main"))).filter p).Sublist
      (possibleScripts hooks "push" (some (Json.str "repo"))
        (some (Json.str "main"))) :=
  fun _ _ => ⟨rfl, List.filter_sublist _⟩

/-- C7: the allow-list refresh issues a conditional fetch carrying the
cached validator; a 304 returns the cached ranges with the cache
unchanged; a 200 replaces both the ranges and the validator with the
fetched values; any other status aborts with exactly that status code. -/
theorem c7_allowlist_refresh :
    ∀ (ghm : GithubMeta) (resp : MetaResponse),
    metaRequestHeaders ghm = [("If-None-Match", ghm.etag)] ∧
    (resp.status = 304 → githubMetaRefresh ghm resp = .ok (ghm, ghm.ips)) ∧
    (∀ e, resp.status = 200 → resp.etagHeader = some e →
      githubMetaRefresh ghm resp =
        .ok ({ ips := resp.hooks, etag := e }, resp.hooks)) ∧
    (resp.status ≠ 200 → resp.status ≠ 304 →
      githubMetaRefresh ghm resp = .error (.abort resp.status)) := by
  intro ghm resp
  refine ⟨rfl, ?_, ?_, ?_⟩
  · intro h
    simp [githubMetaRefresh, h]
  · intro e h he
    simp [githubMetaRefresh, h, he]
  · intro h1 h2
    simp [githubMetaRefresh, h1, h2]

/-- C7, witness: a concrete cache state refreshed against a 200, a 304 and
a 500 response. -/
theorem c7_witness :
    respFresh.status = 200 ∧ respFresh.etagHeader = some "E2" ∧
    githubMetaRefresh ghmCached respFresh =
      .ok ({ ips := ["192.30.252.0/22"], etag := "E2" }, ["192.30.252.0/22"]) ∧
    respNotModified.status = 304 ∧
    githubMetaRefresh ghmCached respNotModified = .ok (ghmCached, ghmCached.ips) ∧
    githubMetaRefresh ghmCached respFailed = .error (.abort 500) :=
  ⟨rfl, rfl, (c7_allowlist_refresh ghmCached respFresh).2.2.1 "E2" rfl rfl,
   rfl, (c7_allowlist_refresh ghmCached respNotModified).2.1 rfl,
   (c7_allowlist_refresh ghmCached respFailed).2.2.2 (by decide) (by decide)⟩

/-- C8: a POST request that passes the source and signature checks and
whose `X-GitHub-Event` header is `"ping"` or absent gets the fixed pong
response, with no payload parsing, no hook resolution and no hook
execution (the empty trace), for every payload and hook configuration. -/
theorem c8_ping_shortcircuit :
    ∀ (cfg : Config) (w : World) (ghm : GithubMeta) (req : WebRequest),
    req.method = "POST" →
    sourceCheck cfg w ghm req = .ok () →
    enforceSecretCheck cfg.enforceSecret
      (headerGet req.headers "X-Hub-Signature") req.body = .ok () →
    (headerGet req.headers "X-GitHub-Event" = none ∨
     headerGet req.headers "X-GitHub-Event" = some "ping") →
    index cfg w ghm req = (.ok pongBody, {}) := by
  intro cfg w ghm req h1 h2 h3 h4
  rcases h4 with h4 | h4 <;> simp [index, h1, h2, h3, h4]

/-- C8, witness: a concrete POST with no event header, a parseable payload
and an executable catch-all hook still answers pong with the empty
trace. -/
theorem c8_witness :
    reqNoEvent.method = "POST" ∧
    sourceCheck cfgNoIp worldHookOk {} reqNoEvent = .ok () ∧
    enforceSecretCheck cfgNoIp.enforceSecret
      (headerGet reqNoEvent.headers "X-Hub-Signature") reqNoEvent.body = .ok () ∧
    index cfgNoIp worldHookOk {} reqNoEvent = (.ok pongBody, {}) :=
  ⟨rfl, rfl, rfl,
   c8_ping_shortcircuit cfgNoIp worldHookOk {} reqNoEvent rfl rfl rfl (Or.inl rfl)⟩

/-- C9: a push event whose parsed payload (a mapping) lacks the `deleted`
key makes the handler terminate with an uncaught `KeyError` —
`payload['deleted']` at line 195 is read unconditionally — instead of
resolving or running any hook. -/
theorem c9_push_missing_deleted :
    ∀ (cfg : Config) (w : World) (ghm : GithubMeta) (req : WebRequest)
      (kvs : List (String × Json)) (b n : Option Json),
    req.method = "POST" →
    sourceCheck cfg w ghm req = .ok () →
    enforceSecretCheck cfg.enforceSecret
      (headerGet req.headers "X-Hub-Signature") req.body = .ok () →
    headerGet req.headers "X-GitHub-Event" = some "push" →
    req.getJson = .ok (.obj kvs) →
    dictGet kvs "deleted" = none →
    extractBranch "push" (.obj kvs) = .ok b →
    extractName (.obj kvs) = .ok n →
    index cfg w ghm req = (.error (.exc .keyError), { payloadParsed := true }) := by
  intro cfg w ghm req kvs b n h1 h2 h3 h4 h5 h6 h7 h8
  simp [index, h1, h2, h3, h4, h5, afterParse, h7, h8, pushDeleted, subscript,
    h6, Except.map]

/-- C9, witness: a concrete push request whose payload has a `ref` but no
`deleted` key dies with `KeyError` before any hook is invoked. -/
theorem c9_witness :
    reqPushNoDeleted.getJson = .ok (.obj [("ref", Json.str "refs/heads/main")]) ∧
    dictGet [("ref", Json.str "refs/heads/main")] "deleted" = none ∧
    index cfgNoIp worldHookOk {} reqPushNoDeleted =
      (.error (.exc .keyError), { payloadParsed := true }) :=
  ⟨rfl, rfl,
   c9_push_missing_deleted cfgNoIp worldHookOk {} reqPushNoDeleted
     [("ref", Json.str "refs/heads/main")] (some (Json.str "main")) none
     rfl rfl rfl rfl rfl rfl rfl rfl⟩

/-- C10: with a non-empty secret, an `X-Hub-Signature` header that does not
contain exactly one `=` character makes the two-variable unpacking of
`split('=')` raise an uncaught `ValueError` — not the 403/501 rejection
of the error taxonomy. -/
theorem c10_malformed_signature_valueerror :
    ∀ (secret hs : String) (body : List Nat),
    secret ≠ "" → hs.data.count (Char.ofNat 61) ≠ 1 →
    enforceSecretCheck secret (some hs) body = .error (.exc .valueError) := by
  intro secret hs body hsec hcount
  unfold enforceSecretCheck
  rw [if_neg hsec]
  cases hsp : pySplit (Char.ofNat 61) hs with
  | nil =>
    have := congrArg List.length hsp
    simp [pySplit, splitCharList_length] at this
  | cons a t =>
    cases t with
    | nil => simp [hsp]
    | cons b t2 =>
      cases t2 with
      | nil =>
        exfalso
        apply hcount
        have := congrArg List.length hsp
        simp [pySplit, splitCharList_length] at this
        omega
      | cons c r => simp [hsp]

/-- C10, witness: a digest-only header (no `=` at all) with a configured
secret yields `ValueError`. -/
theorem c10_witness :
    ("secret" : String) ≠ "" ∧
    "deadbeef".data.count (Char.ofNat 61) ≠ 1 ∧
    enforceSecretCheck "secret" (some "deadbeef") [] = .error (.exc .valueError) :=
  ⟨by decide, by decide,
   c10_malformed_signature_valueerror "secret" "deadbeef" [] (by decide) (by decide)⟩

end Webhooks
